import Mathlib

/-!
Verification of the randomness-quality assessment core of the
Quantum_Secure_Key_Generator repository: a shallow embedding of
`backend/entropy_analyzer.py` (the six statistical tests and the
aggregator `analyze_randomness`) and of `backend/comparator.py`
(classical generation, the simulated-quantum fallback, the IBM error
path and the speed-comparison block of `full_comparison`).

Python floats are idealised as exact rationals (`ℚ`); Python's
`round(x, d)` (round-half-to-even) is modelled by `pyRound`.  Tests
whose pass condition involves a transcendental function (`math.log2`,
`math.sqrt`) are embedded through an exactly equivalent decidable
integer/rational comparison; each such definition carries a doc comment
deriving the equivalence.  Wall-clock readings and the process entropy
consumed by the generators are explicit parameters, so every definition
is an executable pure function of its inputs.
-/

namespace QSKG

/-- Python's `round` to an integer: round-half-to-even on the exact
rational value. -/
def pyRoundInt (q : ℚ) : ℤ :=
  let f := ⌊q⌋
  let r := q - f
  if r < 1 / 2 then f
  else if 1 / 2 < r then f + 1
  else if 2 ∣ f then f else f + 1

/-- Python's `round(x, d)` idealised over the rationals. -/
def pyRound (q : ℚ) (d : ℕ) : ℚ := (pyRoundInt (q * 10 ^ d) : ℚ) / 10 ^ d

/-- The two whole-sequence validation failures of
`EntropyAnalyzer.analyze_randomness` (entropy_analyzer.py lines 29-33):
a non-binary (or empty) input, and an all-binary input shorter than 20
bits.  The source signals them as `{'error': ...}` dictionaries with the
messages `"Invalid bit string. Must contain only 0s and 1s."` and
`"Bit string too short. Need at least 20 bits for meaningful analysis."`. -/
inductive AnalyzeError where
  | invalidInput
  | insufficientLength
deriving DecidableEq

/-- One per-test result dictionary.  Only the fields the verification
touches are carried: the test label, the boolean `passed`, the reported
(4-decimal rounded) `chi_square` where the source computes one, and the
`error` message of a degenerate/inapplicable test.  The remaining keys of
the source dictionaries (descriptions, proportions, quality tiers, ...)
are presentation data derived from the same quantities. -/
structure TestResult where
  test_name : String
  passed : Bool
  chi_square : Option ℚ
  error : Option String
deriving DecidableEq

/-- The numeric value of one bit. -/
def bitQ (b : Bool) : ℚ := if b then 1 else 0

/-- `EntropyAnalyzer.frequency_test` (entropy_analyzer.py lines 58-95):
`ones`/`zeros` counts, `chi_square = (ones-n/2)^2/(n/2) + (zeros-n/2)^2/(n/2)`,
reported rounded to 4 decimals, `passed` iff the unrounded statistic is
`< 3.84`. -/
def frequencyTest (s : List Bool) : TestResult :=
  let n : ℚ := (s.length : ℚ)
  let ones : ℕ := s.count true
  let zeros : ℕ := s.length - s.count true
  let expected : ℚ := n / 2
  let chi : ℚ := ((ones : ℚ) - expected) ^ 2 / expected +
    ((zeros : ℚ) - expected) ^ 2 / expected
  { test_name := "Frequency (Monobit) Test"
    passed := decide (chi < 3.84)
    chi_square := some (pyRound chi 4)
    error := none }

/-- Number of positions `i ≥ 1` with `s[i] ≠ s[i-1]` (the loop of
entropy_analyzer.py lines 108-111). -/
def adjChanges : List Bool → ℕ
  | a :: b :: t => (if a ≠ b then 1 else 0) + adjChanges (b :: t)
  | _ => 0

/-- Total number of runs counted by `runs_test`: `1` plus the number of
adjacent sign changes. -/
def runsCount (s : List Bool) : ℕ := 1 + adjChanges s

/-- `expected_runs = 1 + 2 * ones * (n - ones) / n` (entropy_analyzer.py
line 122). -/
def runsExpected (s : List Bool) : ℚ :=
  let nq : ℚ := (s.length : ℚ)
  let k : ℚ := (s.count true : ℚ)
  1 + 2 * k * (nq - k) / nq

/-- `variance` of the runs statistic (entropy_analyzer.py line 123),
floored at 0.001 when nonpositive (lines 125-126). -/
def runsVariance (s : List Bool) : ℚ :=
  let nq : ℚ := (s.length : ℚ)
  let k : ℚ := (s.count true : ℚ)
  let variance0 : ℚ := (2 * k * (nq - k) * (2 * k * (nq - k) - nq)) /
    (nq * nq * (nq - 1))
  if variance0 ≤ 0 then 0.001 else variance0

/-- `EntropyAnalyzer.runs_test` (entropy_analyzer.py lines 97-144).
All-identical input (`pi == 0 or pi == 1`) short-circuits to a failed
result carrying the degeneracy message.  Otherwise
`z = (runs - expected_runs)/sqrt(variance)` and `passed` iff `|z| < 1.96`;
since the (possibly 0.001-floored) variance is positive this is exactly
`(runs - expected_runs)^2 < 1.96^2 * variance`, the decidable rational
form used here (`runsTest_passed_iff` below proves the equivalence). -/
def runsTest (s : List Bool) : TestResult :=
  let n : ℕ := s.length
  let ones : ℕ := s.count true
  let runs : ℕ := runsCount s
  if ones = 0 ∨ ones = n then
    { test_name := "Runs Test"
      passed := false
      chi_square := none
      error := some "Bit string is all 0s or all 1s" }
  else
    { test_name := "Runs Test"
      passed := decide (((runs : ℚ) - runsExpected s) ^ 2 < 1.96 ^ 2 * runsVariance s)
      chi_square := none
      error := none }

/-- `EntropyAnalyzer.shannon_entropy_test` (entropy_analyzer.py lines
146-197).  With `a` ones and `b` zeros out of `n`, the source computes
`H = -(a/n)*log2(a/n) - (b/n)*log2(b/n)` (a vanishing count contributes
nothing) and sets `passed` iff `H > 0.9`.  Multiplying by `10 n` and
exponentiating base 2, `H > 9/10` holds iff
`n^(10 n) > 2^(9 n) * a^(10 a) * b^(10 b)` (with `0^0 = 1` matching the
skipped term), which is the exact decidable form used for `passed`
(`shannonTest_passed_iff` below proves the equivalence). -/
def shannonTest (s : List Bool) : TestResult :=
  let n : ℕ := s.length
  let ones : ℕ := s.count true
  let zeros : ℕ := n - ones
  { test_name := "Shannon Entropy Test"
    passed := decide (2 ^ (9 * n) * ones ^ (10 * ones) * zeros ^ (10 * zeros) < n ^ (10 * n))
    chi_square := none
    error := none }

/-- `EntropyAnalyzer.serial_test` (entropy_analyzer.py lines 199-245):
inputs shorter than 4 bits get a failed result with an error message;
otherwise the `n-1` overlapping 2-bit windows are bucketed into
`00/01/10/11`, `chi_square` is the 4-category goodness-of-fit statistic
(reported rounded to 4 decimals) and `passed` iff it is `< 7.81`. -/
def serialTest (s : List Bool) : TestResult :=
  let n : ℕ := s.length
  if n < 4 then
    { test_name := "Serial Test"
      passed := false
      chi_square := none
      error := some "Need at least 4 bits for serial test" }
  else
    let pairs := s.zip s.tail
    let expected : ℚ := ((n : ℚ) - 1) / 4
    let chi : ℚ :=
      ((pairs.count (false, false) : ℚ) - expected) ^ 2 / expected +
      ((pairs.count (false, true) : ℚ) - expected) ^ 2 / expected +
      ((pairs.count (true, false) : ℚ) - expected) ^ 2 / expected +
      ((pairs.count (true, true) : ℚ) - expected) ^ 2 / expected
    { test_name := "Serial (2-bit Pattern) Test"
      passed := decide (chi < 7.81)
      chi_square := some (pyRound chi 4)
      error := none }

/-- The scan of `longest_run_test` (entropy_analyzer.py lines 256-274):
state is (previous symbol, current run length, best run of ones, best run
of zeros); the final run is folded in at the end exactly as the source
does with `bit_string[-1]`. -/
def longestRunsGo : Bool → ℕ → ℕ → ℕ → List Bool → ℕ × ℕ
  | prev, cur, mo, mz, [] =>
      if prev then (max mo cur, mz) else (mo, max mz cur)
  | prev, cur, mo, mz, b :: t =>
      if b = prev then longestRunsGo prev (cur + 1) mo mz t
      else if prev then longestRunsGo b 1 (max mo cur) mz t
      else longestRunsGo b 1 mo (max mz cur) t

/-- Longest run of ones and of zeros.  The source indexes
`bit_string[-1]` and so is only ever called on nonempty input (the
aggregator guarantees 20 bits); the `[]` value here is junk. -/
def longestRuns : List Bool → ℕ × ℕ
  | [] => (0, 0)
  | b :: t => longestRunsGo b 1 0 0 t

/-- `EntropyAnalyzer.longest_run_test` (entropy_analyzer.py lines
247-295): `passed` iff `max_run ≤ max(2.5 * log2 n, 10)`.  Splitting the
`max` and exponentiating `2*max_run ≤ 5*log2 n` base 2 gives the exact
decidable form `max_run ≤ 10 ∨ 2^(2*max_run) ≤ n^5` (for `n = 0` the
source uses `expected_max_run = 0`, i.e. threshold 10, and
`2^(2*m) ≤ 0^5` is false, so the form agrees there too;
`longestRunTest_passed_iff` below proves the equivalence). -/
def longestRunTest (s : List Bool) : TestResult :=
  let n : ℕ := s.length
  let mr := longestRuns s
  let maxRun : ℕ := max mr.1 mr.2
  { test_name := "Longest Run Test"
    passed := decide (maxRun ≤ 10 ∨ 2 ^ (2 * maxRun) ≤ n ^ 5)
    chi_square := none
    error := none }

/-- The mean of the bits as {0,1} numerics (entropy_analyzer.py line
315). -/
def acMean (s : List Bool) : ℚ := (s.count true : ℚ) / (s.length : ℚ)

/-- The population variance of the bits (entropy_analyzer.py line 318). -/
def acVariance (s : List Bool) : ℚ :=
  ((s.map fun b => (bitQ b - acMean s) ^ 2).sum) / (s.length : ℚ)

/-- The lag-`lag` autocorrelation coefficient (entropy_analyzer.py lines
328-329). -/
def acValue (s : List Bool) (lag : ℕ) : ℚ :=
  (((s.zip (s.drop lag)).map fun p =>
      (bitQ p.1 - acMean s) * (bitQ p.2 - acMean s)).sum) /
    (((s.length : ℚ) - (lag : ℚ)) * acVariance s)

/-- `EntropyAnalyzer.autocorrelation_test` (entropy_analyzer.py lines
297-347), lag-parametric as in the source (every call site uses lag 1).
Inputs shorter than `lag + 10` and zero-variance inputs yield failed
results with the corresponding error messages.  Otherwise
`z = ac / (1/sqrt n)` and `passed` iff `|z| < 1.96`, which is exactly the
decidable rational comparison `ac^2 * n < 1.96^2` used here
(`autocorrelationTest_passed_iff` below proves the equivalence). -/
def autocorrelationTest (s : List Bool) (lag : ℕ) : TestResult :=
  let n : ℕ := s.length
  if n < lag + 10 then
    { test_name := "Autocorrelation Test"
      passed := false
      chi_square := none
      error := some ("Need at least " ++ toString (lag + 10) ++ " bits for autocorrelation test") }
  else
    if acVariance s = 0 then
      { test_name := "Autocorrelation Test"
        passed := false
        chi_square := none
        error := some "Zero variance in bit string" }
    else
      { test_name := "Autocorrelation Test"
        passed := decide (acValue s lag ^ 2 * (n : ℚ) < 1.96 ^ 2)
        chi_square := none
        error := none }

/-- The aggregate report built by `analyze_randomness` (entropy_analyzer.py
lines 35-56).  `tests` keeps the six insertions as an association list in
source order. -/
structure Report where
  bit_string_length : ℕ
  tests : List (String × TestResult)
  overall_score : ℚ
  passed_tests : ℕ
  total_tests : ℕ
  verdict : String
deriving DecidableEq

/-- The successful branch of `analyze_randomness`: run the six tests in
source order, count passes, score `round(passed/total*100, 1)`, verdict by
the 80/50 banding. -/
def mkReport (cs : List Char) : Report :=
  let s : List Bool := cs.map fun c => c == '1'
  let tests : List (String × TestResult) :=
    [("frequency", frequencyTest s),
     ("runs", runsTest s),
     ("shannon_entropy", shannonTest s),
     ("serial", serialTest s),
     ("longest_run", longestRunTest s),
     ("autocorrelation", autocorrelationTest s 1)]
  let passed : ℕ := (tests.filter fun t => t.2.passed).length
  let total : ℕ := tests.length
  let score : ℚ := pyRound ((passed : ℚ) / (total : ℚ) * 100) 1
  { bit_string_length := cs.length
    tests := tests
    overall_score := score
    passed_tests := passed
    total_tests := total
    verdict := if 80 ≤ score then "HIGH QUALITY"
      else if 50 ≤ score then "MODERATE QUALITY" else "LOW QUALITY" }

/-- `EntropyAnalyzer.analyze_randomness` (entropy_analyzer.py lines
18-56).  The first guard `not bit_string or not all(c in '01' ...)`
rejects the empty string and any non-binary character as `InvalidInput`;
the second rejects all-binary strings shorter than 20 bits as
`InsufficientLength`; otherwise the full report is built. -/
def analyzeRandomness (cs : List Char) : Except AnalyzeError Report :=
  if cs.isEmpty || !(cs.all fun c => c == '0' || c == '1') then
    .error .invalidInput
  else if cs.length < 20 then
    .error .insufficientLength
  else
    .ok (mkReport cs)

/-!
## Comparator (`backend/comparator.py`)

The pseudo-random generator state of `random.Random` is abstracted as an
explicit state type `σ` with a reseeding function and a single-bit step
(the claims depend only on the reseeding discipline, not on the MT19937
internals).  Wall-clock elapsed times are explicit `ℚ` parameters.
-/

/-- Draw `n` bits from the stepped generator, threading the state
(the loop `''.join(str(rng.randint(0, 1)) for _ in range(length))`,
comparator.py line 45). -/
def genBits {σ : Type} (step : σ → Bool × σ) : ℕ → σ → List Bool × σ
  | 0, st => ([], st)
  | n + 1, st =>
    let p := step st
    let rest := genBits step n p.2
    (p.1 :: rest.1, rest.2)

/-- Accumulator form of `int(bits, 2)`: most-significant bit first. -/
def bitsValGo (acc : ℕ) : List Bool → ℕ
  | [] => acc
  | b :: t => bitsValGo (2 * acc + (if b then 1 else 0)) t

/-- The numeric value of a binary string, as `int(bits, 2)` computes it. -/
def bitsVal (bs : List Bool) : ℕ := bitsValGo 0 bs

/-- Uppercase hexadecimal digit, as produced by `hex(...)` followed by
`.upper()`. -/
def hexDigitChar (n : ℕ) : Char :=
  if n < 10 then Char.ofNat (48 + n) else Char.ofNat (55 + n)

/-- Fuel-driven most-significant-first hexadecimal expansion.  The fuel
only serves structural recursion; `hexRep` supplies enough for any
input. -/
def hexRepAux : ℕ → ℕ → List Char
  | 0, _ => []
  | fuel + 1, n =>
    if n < 16 then [hexDigitChar n]
    else hexRepAux fuel (n / 16) ++ [hexDigitChar (n % 16)]

/-- `hex(v)[2:].upper()` for a nonnegative value: the uppercase hex
digits of `v` without leading zeros (and `"0"` for `v = 0`). -/
def hexRep (n : ℕ) : List Char := hexRepAux (n + 1) n

/-- Python's `str.zfill`: left-pad with `'0'` up to width `w` (our
inputs never carry a sign). -/
def zfillChars (w : ℕ) (l : List Char) : List Char :=
  List.replicate (w - l.length) '0' ++ l

/-- One generation-result dictionary.  Carried fields are the ones the
claims inspect; the remaining source keys (`bits_per_ms`, `source`,
`seed_used`, backend metadata, ...) are derived presentation data.
`note` models the extra tag the simulated fallback attaches. -/
structure GenerationRecord where
  method : String
  algorithm : String
  binary : List Bool
  hex : List Char
  length : ℕ
  generation_time_ms : ℚ
  deterministic : Bool
  cryptographic_strength : String
  note : Option String
deriving DecidableEq

/-- `RandomnessComparator.generate_classical_random` (comparator.py lines
28-65) over the abstracted generator: an explicit seed reseeds via
`seedFn`, otherwise the incoming state `st` is used; `elapsedMs` is the
measured wall-clock time, floored at `0.001` (line 48) and reported
rounded to 3 decimals (line 59); the hex field is produced only for
`length >= 4`, zero-padded to `length // 4` digits (line 51).  Returns
the record together with the generator state after the call. -/
def generateClassicalRandom {σ : Type} (seedFn : ℤ → σ) (step : σ → Bool × σ)
    (st : σ) (length : ℕ) (seed : Option ℤ) (elapsedMs : ℚ) :
    GenerationRecord × σ :=
  let st0 := match seed with
    | some sd => seedFn sd
    | none => st
  let g := genBits step length st0
  let generationTime : ℚ := max elapsedMs 0.001
  ({ method := "Classical PRNG"
     algorithm := "Mersenne Twister (MT19937)"
     binary := g.1
     hex := if 4 ≤ length then zfillChars (length / 4) (hexRep (bitsVal g.1)) else []
     length := length
     generation_time_ms := pyRound generationTime 3
     deterministic := true
     cryptographic_strength := "weak"
     note := none }, g.2)

/-- Big-endian bits of `v` in exactly `w` positions:
`bin(v)[2:].zfill(w)` for `v < 2^w`. -/
def natBits : ℕ → ℕ → List Bool
  | 0, _ => []
  | w + 1, v => natBits w (v / 2) ++ [decide (v % 2 = 1)]

/-- `RandomnessComparator._simulate_quantum_random` (comparator.py lines
386-416), the demo fallback built from `os.urandom`.  `urandomVal` is
the big-endian integer value of the `(length+7)//8` cryptographically
strong bytes.  Note: unlike every other generation path, the elapsed
time is NOT floored at 0.001 before rounding (lines 400 and 410). -/
def simulateQuantumRandom (length : ℕ) (urandomVal : ℕ) (elapsedMs : ℚ) :
    GenerationRecord :=
  let numBytes : ℕ := (length + 7) / 8
  let binary : List Bool := (natBits (numBytes * 8) urandomVal).take length
  { method := "Quantum RNG (Simulated)"
    algorithm := "Hadamard Gate Superposition (Simulated with os.urandom)"
    binary := binary
    hex := if 4 ≤ length then zfillChars (length / 4) (hexRep (bitsVal binary)) else []
    length := length
    generation_time_ms := pyRound elapsedMs 3
    deterministic := false
    cryptographic_strength := "strong"
    note := some "Simulated using cryptographic random when quantum simulator unavailable" }

/-- The error dictionary an external source can return: `error` message
plus optional `detail` and `hint` (comparator.py lines 132-139). -/
structure SourceError where
  message : String
  detail : Option String
  hint : Option String
deriving DecidableEq

/-- Result of the external (quantum) source: a generation record or an
error dictionary. -/
inductive QuantumOutcome where
  | ok (r : GenerationRecord)
  | err (e : SourceError)
deriving DecidableEq

/-- The fields of `ibm_manager.generate_secure_key`'s result that
`_generate_quantum_random_ibm` reads. -/
structure IbmResult where
  success : Bool
  error : Option String
  detail : Option String
  hint : Option String
  binary : List Bool
  hex : List Char
deriving DecidableEq

/-- `RandomnessComparator._generate_quantum_random_ibm` (comparator.py
lines 119-157): a missing manager or an unsuccessful IBM result becomes
an error dictionary — the IBM `error`/`detail`/`hint` fields are passed
through verbatim, with the default message `"IBM hardware generation
failed"` — and a successful one becomes a hardware generation record
whose elapsed time is floored at 0.001. -/
def generateQuantumRandomIbm (ibmResult : Option IbmResult) (length : ℕ)
    (elapsedMs : ℚ) : QuantumOutcome :=
  match ibmResult with
  | none => .err { message := "IBM manager not available", detail := none, hint := none }
  | some ir =>
    if ir.success = false then
      .err { message := ir.error.getD "IBM hardware generation failed"
             detail := ir.detail
             hint := ir.hint }
    else
      .ok { method := "Quantum RNG"
            algorithm := "IBM Quantum Runtime Sampler (Real Hardware)"
            binary := ir.binary
            hex := ir.hex
            length := length
            generation_time_ms := pyRound (max elapsedMs 0.001) 3
            deterministic := false
            cryptographic_strength := "strong"
            note := none }

/-- The `speed_comparison` block of `full_comparison` (comparator.py
lines 296-324).  The human-readable `message` and the mode-dependent
`note` are presentation strings derived from the same quantities and are
not carried. -/
structure SpeedComparison where
  classical_time_ms : ℚ
  quantum_time_ms : ℚ
  speed_ratio : ℚ
  faster : String
deriving DecidableEq

/-- Lines 297-311 of comparator.py: both times are floored at 0.1 for
the ratio; `speed_ratio` is always `round(safe_quantum/safe_classical, 2)`
(line 302), and `faster` compares the raw times. -/
def speedComparison (classicalTime quantumTime : ℚ) : SpeedComparison :=
  let safeClassical : ℚ := max classicalTime 0.1
  let safeQuantum : ℚ := max quantumTime 0.1
  { classical_time_ms := classicalTime
    quantum_time_ms := quantumTime
    speed_ratio := pyRound (safeQuantum / safeClassical) 2
    faster := if classicalTime < quantumTime then "classical"
      else if quantumTime < classicalTime then "quantum" else "tie" }

/-- The slice of the `full_comparison` result the claims inspect. -/
structure ComparisonResult where
  classical_generation : GenerationRecord
  quantum_generation : QuantumOutcome
  speed_comparison : SpeedComparison
deriving DecidableEq

/-- Steps 2 and 4 of `RandomnessComparator.full_comparison`
(comparator.py lines 257-324).  Step 1 (invoking the two sources) is
non-deterministic, so the classical record and the external outcome are
explicit inputs; `fallbackVal`/`fallbackElapsedMs` are the entropy and
wall-clock reading the fallback would consume.  If the external source
errored and `mode == 'simulator'`, the fallback record is substituted
(lines 281-285); in any other mode the error dictionary is stored
unchanged.  The speed block reads `generation_time_ms` with default `0`
when the quantum side is an error dictionary (line 298). -/
def fullComparison (length : ℕ) (classicalResult : GenerationRecord)
    (externalResult : QuantumOutcome) (mode : String)
    (fallbackVal : ℕ) (fallbackElapsedMs : ℚ) : ComparisonResult :=
  let quantumResult : QuantumOutcome :=
    match externalResult with
    | .ok r => .ok r
    | .err e =>
      if mode = "simulator" then .ok (simulateQuantumRandom length fallbackVal fallbackElapsedMs)
      else .err e
  let quantumTime : ℚ := match quantumResult with
    | .ok r => r.generation_time_ms
    | .err _ => 0
  { classical_generation := classicalResult
    quantum_generation := quantumResult
    speed_comparison := speedComparison classicalResult.generation_time_ms quantumTime }

/-- A concrete classical record used to exercise `fullComparison` at
specific inputs. -/
def claim4Classical : GenerationRecord :=
  { method := "Classical PRNG"
    algorithm := "Mersenne Twister (MT19937)"
    binary := [true, false, true, false, true, false, true, false]
    hex := ['A', 'A']
    length := 8
    generation_time_ms := 1
    deterministic := true
    cryptographic_strength := "weak"
    note := none }

/-- A concrete external-source error used to exercise `fullComparison`
at specific inputs. -/
def claim4Error : SourceError :=
  { message := "boom", detail := some "a detail", hint := some "a hint" }

/-- A concrete failed IBM result used to exercise
`generateQuantumRandomIbm` at specific inputs. -/
def claim4Ibm : IbmResult :=
  { success := false, error := some "boom", detail := some "a detail",
    hint := some "a hint", binary := [], hex := [] }

/-!
## Supporting lemmas
-/

theorem pyRoundInt_cases (q : ℚ) : pyRoundInt q = ⌊q⌋ ∨ pyRoundInt q = ⌊q⌋ + 1 := by
  unfold pyRoundInt
  dsimp only
  split_ifs <;> simp

theorem floor_le_pyRoundInt (q : ℚ) : ⌊q⌋ ≤ pyRoundInt q := by
  rcases pyRoundInt_cases q with h | h <;> omega

theorem pyRoundInt_le_ceil (q : ℚ) : pyRoundInt q ≤ ⌈q⌉ := by
  have hfc : ⌊q⌋ ≤ ⌈q⌉ := Int.floor_le_ceil q
  have key : (1 : ℚ) / 2 ≤ q - ⌊q⌋ → ⌊q⌋ + 1 ≤ ⌈q⌉ := by
    intro h
    have h1 : (⌊q⌋ : ℚ) < q := by linarith
    have h2 : (⌊q⌋ : ℚ) < (⌈q⌉ : ℚ) := lt_of_lt_of_le h1 (Int.le_ceil q)
    have h3 : ⌊q⌋ < ⌈q⌉ := by exact_mod_cast h2
    omega
  unfold pyRoundInt
  dsimp only
  split_ifs with h1 h2 h3
  · exact hfc
  · exact key (le_of_lt h2)
  · exact hfc
  · exact key (le_of_not_lt h1)

/-- Rounding a nonnegative quantity is nonnegative. -/
theorem pyRound_nonneg {q : ℚ} (d : ℕ) (h : 0 ≤ q) : 0 ≤ pyRound q d := by
  unfold pyRound
  apply div_nonneg _ (by positivity)
  have h0 : (0 : ℤ) ≤ ⌊q * 10 ^ d⌋ :=
    Int.floor_nonneg.mpr (mul_nonneg h (by positivity))
  exact_mod_cast le_trans h0 (floor_le_pyRoundInt (q * 10 ^ d))

/-- Rounding cannot push a quantity past a natural-number bound. -/
theorem pyRound_le_nat {q : ℚ} (d m : ℕ) (h : q ≤ m) : pyRound q d ≤ m := by
  unfold pyRound
  rw [div_le_iff₀ (by positivity)]
  have h1 : pyRoundInt (q * 10 ^ d) ≤ ⌈q * 10 ^ d⌉ := pyRoundInt_le_ceil _
  have h2 : ⌈q * 10 ^ d⌉ ≤ (m : ℤ) * 10 ^ d := by
    apply Int.ceil_le.mpr
    push_cast
    exact mul_le_mul_of_nonneg_right h (by positivity)
  have h3 : pyRoundInt (q * 10 ^ d) ≤ (m : ℤ) * 10 ^ d := le_trans h1 h2
  calc ((pyRoundInt (q * 10 ^ d) : ℚ)) ≤ (((m : ℤ) * 10 ^ d : ℤ) : ℚ) := by exact_mod_cast h3
    _ = (m : ℚ) * 10 ^ d := by push_cast; ring

theorem genBits_length {σ : Type} (step : σ → Bool × σ) :
    ∀ (n : ℕ) (st : σ), ((genBits step n st).1).length = n := by
  intro n
  induction n with
  | zero => intro st; rfl
  | succ m ih => intro st; simp [genBits, ih]

theorem bitsValGo_lt : ∀ (bs : List Bool) (acc : ℕ),
    bitsValGo acc bs < (acc + 1) * 2 ^ bs.length := by
  intro bs
  induction bs with
  | nil => intro acc; simp [bitsValGo]
  | cons b t ih =>
    intro acc
    have h := ih (2 * acc + (if b then 1 else 0))
    have hstep : (2 * acc + (if b then 1 else 0) + 1) * 2 ^ t.length ≤
        (acc + 1) * 2 ^ (t.length + 1) := by
      have hb : (if b then 1 else 0) ≤ 1 := by cases b <;> simp
      have : 2 * acc + (if b then 1 else 0) + 1 ≤ 2 * (acc + 1) := by omega
      calc (2 * acc + (if b then 1 else 0) + 1) * 2 ^ t.length
          ≤ 2 * (acc + 1) * 2 ^ t.length := Nat.mul_le_mul_right _ this
        _ = (acc + 1) * 2 ^ (t.length + 1) := by ring
    calc bitsValGo acc (b :: t) = bitsValGo (2 * acc + (if b then 1 else 0)) t := rfl
      _ < (2 * acc + (if b then 1 else 0) + 1) * 2 ^ t.length := h
      _ ≤ (acc + 1) * 2 ^ (t.length + 1) := hstep
      _ = (acc + 1) * 2 ^ (b :: t).length := by simp

/-- `int(bits, 2)` of an `L`-bit string is below `2^L`. -/
theorem bitsVal_lt (bs : List Bool) : bitsVal bs < 2 ^ bs.length := by
  simpa [bitsVal] using bitsValGo_lt bs 0

/-- A value below `16^k` has at most `k` uppercase hex digits. -/
theorem hexRepAux_length : ∀ (fuel n k : ℕ), n < fuel → 1 ≤ k → n < 16 ^ k →
    (hexRepAux fuel n).length ≤ k := by
  intro fuel
  induction fuel with
  | zero => intro n k h; omega
  | succ f ih =>
    intro n k hn hk hpow
    unfold hexRepAux
    split_ifs with h16
    · simpa using hk
    · simp only [List.length_append, List.length_cons, List.length_nil]
      have hk2 : 2 ≤ k := by
        by_contra hcon
        have hk1 : k = 1 := by omega
        subst hk1
        simp at hpow
        omega
      have hdiv : n / 16 < 16 ^ (k - 1) := by
        have hsplit : 16 ^ k = 16 ^ (k - 1) * 16 := by
          conv_lhs => rw [show k = (k - 1) + 1 by omega]
          rw [pow_succ]
        exact (Nat.div_lt_iff_lt_mul (by omega)).mpr (by omega)
      have hrec : (hexRepAux f (n / 16)).length ≤ k - 1 := by
        apply ih
        · have : n / 16 < n := Nat.div_lt_self (by omega) (by omega)
          omega
        · omega
        · exact hdiv
      omega

theorem zfillChars_length (w : ℕ) (l : List Char) :
    (zfillChars w l).length = max w l.length := by
  simp [zfillChars]
  omega

/-- An `L`-bit value padded to `L / 4` hex digits has exactly `L / 4`
digits when `4 ∣ L`. -/
theorem hexPadded_length (bits : List Bool) (L : ℕ) (hlen : bits.length = L)
    (hdvd : 4 ∣ L) (h : 4 ≤ L) :
    (zfillChars (L / 4) (hexRep (bitsVal bits))).length = L / 4 := by
  rw [zfillChars_length]
  have hval : bitsVal bits < 16 ^ (L / 4) := by
    have h2 := bitsVal_lt bits
    rw [hlen] at h2
    have hpow : (2 : ℕ) ^ L = 16 ^ (L / 4) := by
      obtain ⟨m, rfl⟩ := hdvd
      rw [Nat.mul_div_cancel_left m (by norm_num), pow_mul]
      norm_num
    omega
  have hhex : (hexRep (bitsVal bits)).length ≤ L / 4 := by
    unfold hexRep
    exact hexRepAux_length _ _ _ (Nat.lt_succ_self _) (by omega) hval
  omega

/-- The aggregator's two guards pass on a valid input of length at least
20, so the full report is produced. -/
theorem analyzeRandomness_eq_ok (cs : List Char)
    (hv : (cs.all fun c => c == '0' || c == '1') = true) (hl : 20 ≤ cs.length) :
    analyzeRandomness cs = .ok (mkReport cs) := by
  have hne : cs.isEmpty = false := by
    cases cs with
    | nil => simp at hl
    | cons a t => rfl
  unfold analyzeRandomness
  rw [hne, hv]
  simp [Nat.not_lt.mpr hl]

theorem mkReport_total (cs : List Char) : (mkReport cs).total_tests = 6 := rfl

theorem mkReport_keys (cs : List Char) :
    (mkReport cs).tests.map Prod.fst =
      ["frequency", "runs", "shannon_entropy", "serial", "longest_run", "autocorrelation"] := rfl

theorem mkReport_passed_le (cs : List Char) : (mkReport cs).passed_tests ≤ 6 := by
  have h := List.length_filter_le (fun t : String × TestResult => t.2.passed)
    (mkReport cs).tests
  have hlen : (mkReport cs).tests.length = 6 := rfl
  rw [hlen] at h
  exact h

theorem mkReport_score_eq (cs : List Char) :
    (mkReport cs).overall_score =
      pyRound (((mkReport cs).passed_tests : ℚ) / 6 * 100) 1 := rfl

theorem mkReport_verdict_eq (cs : List Char) :
    (mkReport cs).verdict =
      (if 80 ≤ (mkReport cs).overall_score then "HIGH QUALITY"
        else if 50 ≤ (mkReport cs).overall_score then "MODERATE QUALITY"
        else "LOW QUALITY") := rfl

theorem mkReport_score_nonneg (cs : List Char) : 0 ≤ (mkReport cs).overall_score := by
  rw [mkReport_score_eq]
  exact pyRound_nonneg 1 (by positivity)

theorem mkReport_score_le_100 (cs : List Char) : (mkReport cs).overall_score ≤ 100 := by
  rw [mkReport_score_eq]
  apply pyRound_le_nat 1 100
  have hp : ((mkReport cs).passed_tests : ℚ) ≤ 6 := by
    exact_mod_cast mkReport_passed_le cs
  linarith

/-- The degenerate branch of the runs test: an all-zero or all-one
sequence yields a failed result carrying the degeneracy message. -/
theorem runsTest_degenerate (s : List Bool)
    (h : s.count true = 0 ∨ s.count true = s.length) :
    runsTest s =
      { test_name := "Runs Test", passed := false, chi_square := none,
        error := some "Bit string is all 0s or all 1s" } := by
  unfold runsTest
  dsimp only
  rw [if_pos h]

/-!
## Faithfulness of the decidable pass conditions

The source decides the runs, autocorrelation, longest-run and entropy
tests with `math.sqrt`/`math.log2` comparisons.  The embedding uses
exactly equivalent decidable rational/integer comparisons; the theorems
in this section prove each equivalence against the real-valued condition
the source computes.
-/

/-- `x^2 < c^2 * v` is exactly `|x / sqrt v| < c` for positive `v`,
`c`. -/
theorem sq_lt_iff_abs_div_sqrt_lt (x v c : ℝ) (hv : 0 < v) (hc : 0 < c) :
    x ^ 2 < c ^ 2 * v ↔ |x / Real.sqrt v| < c := by
  have hs : 0 < Real.sqrt v := Real.sqrt_pos.mpr hv
  rw [abs_div, abs_of_nonneg (Real.sqrt_nonneg v), div_lt_iff₀ hs,
    show c ^ 2 * v = (c * Real.sqrt v) ^ 2 by rw [mul_pow, Real.sq_sqrt hv.le],
    sq_lt_sq, abs_of_pos (mul_pos hc hs)]

/-- The floored variance of the runs test is always positive, so
dividing by its square root is safe. -/
theorem runsVariance_pos (s : List Bool) : 0 < runsVariance s := by
  unfold runsVariance
  dsimp only
  split_ifs with h
  · norm_num
  · exact lt_of_not_le h

/-- On non-degenerate input the runs test passes exactly when the
source's z-score `(runs - expected_runs)/sqrt(variance)` has absolute
value below 1.96. -/
theorem runsTest_passed_iff (s : List Bool)
    (h : ¬(s.count true = 0 ∨ s.count true = s.length)) :
    ((runsTest s).passed = true ↔
      |((runsCount s : ℝ) - ((runsExpected s : ℚ) : ℝ)) /
          Real.sqrt ((runsVariance s : ℚ) : ℝ)| < 1.96) := by
  unfold runsTest
  dsimp only
  rw [if_neg h]
  dsimp only
  rw [decide_eq_true_iff]
  have hv : (0 : ℝ) < ((runsVariance s : ℚ) : ℝ) := by
    exact_mod_cast runsVariance_pos s
  rw [← sq_lt_iff_abs_div_sqrt_lt _ _ _ hv (by norm_num),
    show (1.96 : ℝ) = ((1.96 : ℚ) : ℝ) from by norm_cast]
  exact_mod_cast Iff.rfl

/-- On applicable, nonconstant input the autocorrelation test passes
exactly when the source's z-score `autocorrelation / (1/sqrt n)` has
absolute value below 1.96. -/
theorem autocorrelationTest_passed_iff (s : List Bool) (lag : ℕ)
    (hlen : lag + 10 ≤ s.length) (hvar : acVariance s ≠ 0) :
    ((autocorrelationTest s lag).passed = true ↔
      |((acValue s lag : ℚ) : ℝ) / (1 / Real.sqrt (s.length : ℝ))| < 1.96) := by
  unfold autocorrelationTest
  dsimp only
  rw [if_neg (by omega : ¬s.length < lag + 10), if_neg hvar]
  dsimp only
  rw [decide_eq_true_iff]
  have hn : (0 : ℝ) < (s.length : ℝ) := by
    have : 0 < s.length := by omega
    exact_mod_cast this
  rw [one_div, ← Real.sqrt_inv,
    ← sq_lt_iff_abs_div_sqrt_lt _ _ _ (by positivity) (by norm_num : (0:ℝ) < 1.96)]
  rw [show (1.96 : ℝ) ^ 2 * ((s.length : ℝ))⁻¹ = 1.96 ^ 2 / (s.length : ℝ) by ring,
    lt_div_iff₀ hn, show (1.96 : ℝ) = ((1.96 : ℚ) : ℝ) from by norm_cast]
  exact_mod_cast Iff.rfl

/-- The longest-run test passes exactly when the maximal run length is
below the source's threshold `max(2.5 * log2(n), 10)`. -/
theorem longestRunTest_passed_iff (s : List Bool) (hn : 1 ≤ s.length) :
    ((longestRunTest s).passed = true ↔
      ((max (longestRuns s).1 (longestRuns s).2 : ℕ) : ℝ) ≤
        max (2.5 * Real.logb 2 (s.length : ℝ)) 10) := by
  unfold longestRunTest
  dsimp only
  rw [decide_eq_true_iff, le_max_iff]
  have hlen : (0 : ℝ) < (s.length : ℝ) := by
    have : 0 < s.length := hn
    exact_mod_cast this
  have h10 : (((max (longestRuns s).1 (longestRuns s).2 : ℕ) : ℝ) ≤ 10) ↔
      max (longestRuns s).1 (longestRuns s).2 ≤ 10 := by
    exact_mod_cast Iff.rfl
  have hlog : (((max (longestRuns s).1 (longestRuns s).2 : ℕ) : ℝ) ≤
        2.5 * Real.logb 2 (s.length : ℝ)) ↔
      2 ^ (2 * max (longestRuns s).1 (longestRuns s).2) ≤ s.length ^ 5 := by
    rw [show (2.5 : ℝ) * Real.logb 2 (s.length : ℝ) =
        5 * Real.logb 2 (s.length : ℝ) / 2 by ring,
      le_div_iff₀ (by norm_num : (0 : ℝ) < 2),
      show (5 : ℝ) * Real.logb 2 (s.length : ℝ) =
        Real.logb 2 ((s.length : ℝ) ^ (5 : ℕ)) by rw [Real.logb_pow]; norm_num,
      Real.le_logb_iff_rpow_le (by norm_num : (1 : ℝ) < 2) (by positivity),
      show ((max (longestRuns s).1 (longestRuns s).2 : ℕ) : ℝ) * 2 =
        ((2 * max (longestRuns s).1 (longestRuns s).2 : ℕ) : ℝ) by push_cast; ring,
      Real.rpow_natCast]
    exact_mod_cast Iff.rfl
  rw [hlog, h10]
  exact or_comm

/-- The integer comparison deciding the Shannon entropy test is exactly
`entropy > 0.9` for the two-symbol distribution `(a, b)`:
`-(a/n)*log2(a/n) - (b/n)*log2(b/n) > 9/10` with `n = a + b` iff
`2^(9n) * a^(10a) * b^(10b) < n^(10n)` (a vanishing count contributes
nothing on either side, matching `0^0 = 1`). -/
theorem shannon_decision_iff_entropy (a b : ℕ) (hab : 1 ≤ a + b) :
    (2 ^ (9 * (a + b)) * a ^ (10 * a) * b ^ (10 * b) < (a + b) ^ (10 * (a + b))) ↔
      (0.9 : ℝ) <
        -(((a : ℝ) / ((a + b : ℕ) : ℝ)) * Real.logb 2 ((a : ℝ) / ((a + b : ℕ) : ℝ)))
        - ((b : ℝ) / ((a + b : ℕ) : ℝ)) * Real.logb 2 ((b : ℝ) / ((a + b : ℕ) : ℝ)) := by
  rcases Nat.eq_zero_or_pos a with ha | ha
  · subst ha
    have hb : 0 < b := by omega
    have hbR : (0 : ℝ) < (b : ℝ) := by exact_mod_cast hb
    simp only [Nat.zero_add, Nat.mul_zero, pow_zero, mul_one, Nat.cast_zero, zero_div,
      zero_mul, neg_zero, zero_sub, Nat.cast_ofNat]
    rw [div_self (ne_of_gt hbR), Real.logb_one, mul_zero, neg_zero]
    constructor
    · intro h
      exact absurd h (by
        apply Nat.not_lt.mpr
        exact Nat.le_mul_of_pos_left _ (Nat.pos_pow_of_pos _ (by norm_num)))
    · intro h
      norm_num at h
  rcases Nat.eq_zero_or_pos b with hb | hb
  · subst hb
    have haR : (0 : ℝ) < (a : ℝ) := by exact_mod_cast ha
    simp only [Nat.add_zero, Nat.mul_zero, pow_zero, mul_one, Nat.cast_zero, zero_div,
      zero_mul, neg_zero, sub_zero, Nat.cast_ofNat]
    rw [div_self (ne_of_gt haR), Real.logb_one, mul_zero, neg_zero]
    constructor
    · intro h
      exact absurd h (by
        apply Nat.not_lt.mpr
        exact Nat.le_mul_of_pos_left _ (Nat.pos_pow_of_pos _ (by norm_num)))
    · intro h
      norm_num at h
  · have hA : (0 : ℝ) < (a : ℝ) := by exact_mod_cast ha
    have hB : (0 : ℝ) < (b : ℝ) := by exact_mod_cast hb
    have hN : (0 : ℝ) < ((a + b : ℕ) : ℝ) := by
      push_cast
      linarith
    have hcast : (2 ^ (9 * (a + b)) * a ^ (10 * a) * b ^ (10 * b) <
          (a + b) ^ (10 * (a + b))) ↔
        ((2 : ℝ) ^ (9 * (a + b)) * (a : ℝ) ^ (10 * a) * (b : ℝ) ^ (10 * b) <
          ((a + b : ℕ) : ℝ) ^ (10 * (a + b))) := by
      exact_mod_cast Iff.rfl
    rw [hcast,
      ← Real.logb_lt_logb_iff (by norm_num : (1 : ℝ) < 2)
        (by positivity) (by positivity),
      Real.logb_mul (by positivity) (by positivity),
      Real.logb_mul (by positivity) (by positivity),
      Real.logb_pow, Real.logb_pow, Real.logb_pow, Real.logb_pow,
      Real.logb_self_eq_one (by norm_num : (1 : ℝ) < 2),
      Real.logb_div (ne_of_gt hA) (ne_of_gt hN),
      Real.logb_div (ne_of_gt hB) (ne_of_gt hN)]
    set LA := Real.logb 2 (a : ℝ)
    set LB := Real.logb 2 (b : ℝ)
    set LN := Real.logb 2 ((a + b : ℕ) : ℝ)
    rw [show -((a : ℝ) / ((a + b : ℕ) : ℝ) * (LA - LN)) -
          (b : ℝ) / ((a + b : ℕ) : ℝ) * (LB - LN) =
        (((a : ℝ) + (b : ℝ)) * LN - (a : ℝ) * LA - (b : ℝ) * LB) / ((a + b : ℕ) : ℝ) by
          field_simp
          ring,
      lt_div_iff₀ hN]
    push_cast
    constructor <;> intro h <;> nlinarith [h]

/-- The Shannon entropy test passes exactly when the per-bit entropy of
the observed {0,1} distribution exceeds 0.9 (the source's
`entropy > 0.9`, with a vanishing count contributing no term). -/
theorem shannonTest_passed_iff (s : List Bool) (hn : 1 ≤ s.length) :
    ((shannonTest s).passed = true ↔
      (0.9 : ℝ) <
        -(((s.count true : ℝ) / (s.length : ℝ)) *
            Real.logb 2 ((s.count true : ℝ) / (s.length : ℝ)))
        - (((s.length - s.count true : ℕ) : ℝ) / (s.length : ℝ)) *
            Real.logb 2 (((s.length - s.count true : ℕ) : ℝ) / (s.length : ℝ))) := by
  have hc : s.count true ≤ s.length := s.count_le_length true
  have hs : s.length = s.count true + (s.length - s.count true) := by omega
  unfold shannonTest
  dsimp only
  rw [decide_eq_true_iff]
  rw [show (2 ^ (9 * s.length) * s.count true ^ (10 * s.count true) *
        (s.length - s.count true) ^ (10 * (s.length - s.count true)) <
        s.length ^ (10 * s.length)) =
      (2 ^ (9 * (s.count true + (s.length - s.count true))) *
        s.count true ^ (10 * s.count true) *
        (s.length - s.count true) ^ (10 * (s.length - s.count true)) <
        (s.count true + (s.length - s.count true)) ^
          (10 * (s.count true + (s.length - s.count true)))) from by rw [← hs]]
  rw [shannon_decision_iff_entropy _ _ (by omega)]
  rw [← hs]

/-!
## Claim theorems
-/

/-- Claim C1: for every string of length at least 20 whose characters are
all in {'0','1'}, `analyze_randomness` raises no exception and returns a
report whose `overall_score` lies in [0,100], whose `passed_tests` is at
most `total_tests = 6`, and whose tests map holds exactly the six named
test results in source order.  (In the embedding, absence of an exception
is the fact that the result is `Except.ok`: every internal division and
function application of the six tests is total on this domain.) -/
theorem claim1_analyze_valid_total (cs : List Char)
    (hv : (cs.all fun c => c == '0' || c == '1') = true) (hl : 20 ≤ cs.length) :
    ∃ r : Report, analyzeRandomness cs = Except.ok r ∧
      0 ≤ r.overall_score ∧ r.overall_score ≤ 100 ∧
      r.passed_tests ≤ r.total_tests ∧ r.total_tests = 6 ∧
      r.tests.map Prod.fst =
        ["frequency", "runs", "shannon_entropy", "serial", "longest_run", "autocorrelation"] := by
  refine ⟨mkReport cs, analyzeRandomness_eq_ok cs hv hl,
    mkReport_score_nonneg cs, mkReport_score_le_100 cs, ?_, mkReport_total cs, mkReport_keys cs⟩
  rw [mkReport_total]
  exact mkReport_passed_le cs

/-- Witness for C1 at the all-zero 20-bit string. -/
theorem claim1_witness :
    (((List.replicate 20 '0').all fun c => c == '0' || c == '1') = true ∧
      20 ≤ (List.replicate 20 '0').length) ∧
    (∃ r : Report, analyzeRandomness (List.replicate 20 '0') = Except.ok r ∧
      0 ≤ r.overall_score ∧ r.overall_score ≤ 100 ∧
      r.passed_tests ≤ r.total_tests ∧ r.total_tests = 6 ∧
      r.tests.map Prod.fst =
        ["frequency", "runs", "shannon_entropy", "serial", "longest_run", "autocorrelation"]) :=
  ⟨⟨by decide, by decide⟩, claim1_analyze_valid_total _ (by decide) (by decide)⟩

/-- Claim C2: on the same domain, `overall_score` is `100 * passed_tests / 6`
rounded to one decimal, and the verdict is HIGH QUALITY exactly when the
score is at least 80, MODERATE QUALITY exactly when it is in [50, 80),
and LOW QUALITY otherwise. -/
theorem claim2_score_verdict (cs : List Char)
    (hv : (cs.all fun c => c == '0' || c == '1') = true) (hl : 20 ≤ cs.length) :
    ∃ r : Report, analyzeRandomness cs = Except.ok r ∧
      r.overall_score = pyRound ((r.passed_tests : ℚ) * 100 / 6) 1 ∧
      (r.verdict = "HIGH QUALITY" ↔ 80 ≤ r.overall_score) ∧
      (r.verdict = "MODERATE QUALITY" ↔ 50 ≤ r.overall_score ∧ r.overall_score < 80) ∧
      (r.verdict = "LOW QUALITY" ↔ r.overall_score < 50) := by
  refine ⟨mkReport cs, analyzeRandomness_eq_ok cs hv hl, ?_, ?_, ?_, ?_⟩
  · rw [mkReport_score_eq]
    congr 1
    ring
  · rw [mkReport_verdict_eq]
    by_cases h1 : 80 ≤ (mkReport cs).overall_score
    · rw [if_pos h1]
      simp [h1]
    · rw [if_neg h1]
      by_cases h2 : 50 ≤ (mkReport cs).overall_score
      · rw [if_pos h2]
        exact ⟨fun hc => absurd hc (by decide), fun hc => absurd hc h1⟩
      · rw [if_neg h2]
        exact ⟨fun hc => absurd hc (by decide), fun hc => absurd hc h1⟩
  · rw [mkReport_verdict_eq]
    by_cases h1 : 80 ≤ (mkReport cs).overall_score
    · rw [if_pos h1]
      exact ⟨fun hc => absurd hc (by decide), fun hc => absurd hc.2 (not_lt.mpr h1)⟩
    · rw [if_neg h1]
      by_cases h2 : 50 ≤ (mkReport cs).overall_score
      · rw [if_pos h2]
        exact ⟨fun _ => ⟨h2, not_le.mp h1⟩, fun _ => rfl⟩
      · rw [if_neg h2]
        exact ⟨fun hc => absurd hc (by decide), fun hc => absurd hc.1 h2⟩
  · rw [mkReport_verdict_eq]
    by_cases h1 : 80 ≤ (mkReport cs).overall_score
    · rw [if_pos h1]
      refine ⟨fun hc => absurd hc (by decide), fun hc => absurd hc (not_lt.mpr ?_)⟩
      linarith
    · rw [if_neg h1]
      by_cases h2 : 50 ≤ (mkReport cs).overall_score
      · rw [if_pos h2]
        exact ⟨fun hc => absurd hc (by decide), fun hc => absurd hc (not_lt.mpr h2)⟩
      · rw [if_neg h2]
        exact ⟨fun _ => not_le.mp h2, fun _ => rfl⟩

/-- Witness for C2 at the all-zero 20-bit string. -/
theorem claim2_witness :
    (((List.replicate 20 '0').all fun c => c == '0' || c == '1') = true ∧
      20 ≤ (List.replicate 20 '0').length) ∧
    (∃ r : Report, analyzeRandomness (List.replicate 20 '0') = Except.ok r ∧
      r.overall_score = pyRound ((r.passed_tests : ℚ) * 100 / 6) 1 ∧
      (r.verdict = "HIGH QUALITY" ↔ 80 ≤ r.overall_score) ∧
      (r.verdict = "MODERATE QUALITY" ↔ 50 ≤ r.overall_score ∧ r.overall_score < 80) ∧
      (r.verdict = "LOW QUALITY" ↔ r.overall_score < 50)) :=
  ⟨⟨by decide, by decide⟩, claim2_score_verdict _ (by decide) (by decide)⟩

/-- Claim C9: on any all-identical binary string of length at least 20,
the runs test fails with the recorded degeneracy reason instead of a
division fault, the failure stays inside that single TestResult, the
aggregator still returns a report holding all six named tests, and the
degenerate test still counts toward `total_tests = 6`. -/
theorem claim9_degenerate_isolated (b : Bool) (n : ℕ) (h : 20 ≤ n) :
    ∃ r : Report,
      analyzeRandomness (List.replicate n (if b then '1' else '0')) = Except.ok r ∧
      r.tests.lookup "runs" =
        some { test_name := "Runs Test", passed := false, chi_square := none,
               error := some "Bit string is all 0s or all 1s" } ∧
      r.total_tests = 6 ∧
      r.tests.map Prod.fst =
        ["frequency", "runs", "shannon_entropy", "serial", "longest_run", "autocorrelation"] := by
  set cs : List Char := List.replicate n (if b then '1' else '0') with hcs
  have hv : (cs.all fun c => c == '0' || c == '1') = true := by
    rw [hcs, List.all_eq_true]
    intro c hc
    rw [List.eq_of_mem_replicate hc]
    cases b <;> rfl
  have hl : 20 ≤ cs.length := by
    rw [hcs, List.length_replicate]
    exact h
  refine ⟨mkReport cs, analyzeRandomness_eq_ok cs hv hl, ?_, mkReport_total cs, mkReport_keys cs⟩
  have hmap : cs.map (fun c => c == '1') = List.replicate n (b == (true : Bool)) := by
    rw [hcs, List.map_replicate]
    cases b <;> rfl
  have hdeg : runsTest (cs.map fun c => c == '1') =
      { test_name := "Runs Test", passed := false, chi_square := none,
        error := some "Bit string is all 0s or all 1s" } := by
    apply runsTest_degenerate
    rw [hmap]
    cases b
    · left
      simp [List.count_replicate]
    · right
      simp [List.count_replicate]
  show (mkReport cs).tests.lookup "runs" = _
  unfold mkReport
  dsimp only
  rw [hdeg]
  rfl

/-- Witness for C9 at `n = 20`, all zeros. -/
theorem claim9_witness :
    20 ≤ 20 ∧
    (∃ r : Report,
      analyzeRandomness (List.replicate 20 (if false then '1' else '0')) = Except.ok r ∧
      r.tests.lookup "runs" =
        some { test_name := "Runs Test", passed := false, chi_square := none,
               error := some "Bit string is all 0s or all 1s" } ∧
      r.total_tests = 6 ∧
      r.tests.map Prod.fst =
        ["frequency", "runs", "shannon_entropy", "serial", "longest_run", "autocorrelation"]) :=
  ⟨by decide, claim9_degenerate_isolated false 20 (by decide)⟩

/-- Claim C10: with the same explicit seed, `generate_classical_random`
reseeds the generator before drawing, so two calls with the same length
and seed — regardless of the generator state each call starts from and of
the wall-clock readings — produce identical `binary` and identical `hex`
fields. -/
theorem claim10_seeded_deterministic {σ : Type} (seedFn : ℤ → σ)
    (step : σ → Bool × σ) (st1 st2 : σ) (L : ℕ) (sd : ℤ) (t1 t2 : ℚ) :
    (generateClassicalRandom seedFn step st1 L (some sd) t1).1.binary =
      (generateClassicalRandom seedFn step st2 L (some sd) t2).1.binary ∧
    (generateClassicalRandom seedFn step st1 L (some sd) t1).1.hex =
      (generateClassicalRandom seedFn step st2 L (some sd) t2).1.hex :=
  ⟨rfl, rfl⟩

/-- Claim C3 counterexample: with classical time 5.0 ms and external
time 1.0 ms the reported `speed_ratio` is `round(1/5, 2) = 0.2`, not the
`round(max/min, 2) = 5.0` the claim asserts — comparator.py line 302
always divides safe-quantum by safe-classical. -/
theorem claim3_counterexample :
    (speedComparison 5 1).speed_ratio ≠
      pyRound (max (max 5 0.1) (max 1 0.1) / min (max 5 0.1) (max 1 0.1)) 2 :=
  of_decide_eq_true (by with_unfolding_all rfl)

/-- Claim C3 as amended: `speed_ratio` is
`round(max(time2, 0.1) / max(time1, 0.1), 2)` (external over classical,
so at most 1 when the external source is faster); `faster` names the
source with the smaller raw time, `tie` on equality; and on the claim's
own example (classical 1.0 ms, external 5.0 ms) `faster = "classical"`
and the ratio is 5.0. -/
theorem claim3_speed_comparison (t1 t2 : ℚ) :
    (speedComparison t1 t2).speed_ratio = pyRound (max t2 0.1 / max t1 0.1) 2 ∧
    (speedComparison t1 t2).faster =
      (if t1 < t2 then "classical" else if t2 < t1 then "quantum" else "tie") ∧
    (speedComparison 1 5).faster = "classical" ∧
    (speedComparison 1 5).speed_ratio = 5 :=
  ⟨rfl, rfl, of_decide_eq_true (by with_unfolding_all rfl),
    of_decide_eq_true (by with_unfolding_all rfl)⟩

/-- Claim C4: when the external source returns an error dictionary,
`full_comparison` substitutes the `os.urandom`-based fallback record —
explicitly tagged as simulated — exactly when the mode is `"simulator"`;
in every other mode the error is stored for the caller unchanged, and the
IBM path builds that error dictionary with the upstream
`error`/`detail`/`hint` fields preserved verbatim. -/
theorem claim4_fallback_policy (length : ℕ) (c : GenerationRecord)
    (e : SourceError) (mode : String) (fv : ℕ) (ft : ℚ)
    (ir : IbmResult) (L2 : ℕ) (t2 : ℚ) :
    (mode = "simulator" →
      (fullComparison length c (.err e) mode fv ft).quantum_generation =
        .ok (simulateQuantumRandom length fv ft)) ∧
    ((simulateQuantumRandom length fv ft).method = "Quantum RNG (Simulated)" ∧
      (simulateQuantumRandom length fv ft).note =
        some "Simulated using cryptographic random when quantum simulator unavailable" ∧
      (simulateQuantumRandom length fv ft).deterministic = false ∧
      (simulateQuantumRandom length fv ft).cryptographic_strength = "strong") ∧
    (mode ≠ "simulator" →
      (fullComparison length c (.err e) mode fv ft).quantum_generation = .err e) ∧
    (ir.success = false →
      generateQuantumRandomIbm (some ir) L2 t2 =
        .err { message := ir.error.getD "IBM hardware generation failed",
               detail := ir.detail, hint := ir.hint }) := by
  refine ⟨?_, ⟨rfl, rfl, rfl, rfl⟩, ?_, ?_⟩
  · intro h
    unfold fullComparison
    dsimp only
    rw [if_pos h]
  · intro h
    unfold fullComparison
    dsimp only
    rw [if_neg h]
  · intro h
    unfold generateQuantumRandomIbm
    dsimp only
    rw [if_pos h]

/-- Witness for C4: the simulator-mode substitution, the verbatim
surfacing in `"ibm_hardware"` mode, and the IBM error construction, each
at concrete inputs. -/
theorem claim4_witness :
    (fullComparison 8 claim4Classical (.err claim4Error) "simulator" 0 0).quantum_generation =
      .ok (simulateQuantumRandom 8 0 0) ∧
    (fullComparison 8 claim4Classical (.err claim4Error) "ibm_hardware" 0 0).quantum_generation =
      .err claim4Error ∧
    generateQuantumRandomIbm (some claim4Ibm) 8 0 =
      .err { message := "boom", detail := some "a detail", hint := some "a hint" } :=
  ⟨(claim4_fallback_policy 8 claim4Classical claim4Error "simulator" 0 0 claim4Ibm 8 0).1 rfl,
   (claim4_fallback_policy 8 claim4Classical claim4Error "ibm_hardware" 0 0 claim4Ibm 8 0).2.2.1
     (by decide),
   (claim4_fallback_policy 8 claim4Classical claim4Error "ibm_hardware" 0 0 claim4Ibm 8 0).2.2.2
     rfl⟩

/-- Claim C5 counterexample: the empty string is all-binary and shorter
than 20, yet the first guard of `analyze_randomness`
(`if not bit_string or ...`) classifies it as `InvalidInput`, not the
`InsufficientLength` the claim asserts for every short all-binary
string. -/
theorem claim5_counterexample :
    analyzeRandomness [] = .error .invalidInput ∧
    AnalyzeError.invalidInput ≠ AnalyzeError.insufficientLength :=
  ⟨rfl, by decide⟩

/-- Claim C5 as amended: every NONEMPTY all-binary string shorter than
20 fails with `InsufficientLength`; the empty string and every input
containing a character outside {'0','1'} fail with `InvalidInput`; in
every failure case only the error value is returned (no partial
report). -/
theorem claim5_validation (cs : List Char) :
    (cs ≠ [] → (cs.all fun c => c == '0' || c == '1') = true → cs.length < 20 →
      analyzeRandomness cs = .error .insufficientLength) ∧
    ((cs.all fun c => c == '0' || c == '1') = false →
      analyzeRandomness cs = .error .invalidInput) ∧
    (cs = [] → analyzeRandomness cs = .error .invalidInput) := by
  refine ⟨?_, ?_, ?_⟩
  · intro hne hv hl
    have hemp : cs.isEmpty = false := by
      cases cs with
      | nil => exact absurd rfl hne
      | cons a t => rfl
    unfold analyzeRandomness
    rw [hemp, hv]
    simp [hl]
  · intro hv
    unfold analyzeRandomness
    rw [hv]
    simp
  · intro h
    subst h
    rfl

/-- Witness for C5: a 1-bit valid string and a non-binary string. -/
theorem claim5_witness :
    (['0'] ≠ ([] : List Char) ∧ ((['0'].all fun c => c == '0' || c == '1') = true) ∧
      ['0'].length < 20 ∧ analyzeRandomness ['0'] = .error .insufficientLength) ∧
    (((['2'].all fun c => c == '0' || c == '1') = false) ∧
      analyzeRandomness ['2'] = .error .invalidInput) :=
  ⟨⟨by decide, by decide, by decide,
    (claim5_validation ['0']).1 (by decide) (by decide) (by decide)⟩,
   ⟨by decide, (claim5_validation ['2']).2.1 (by decide)⟩⟩

/-- Claim C6 counterexample: at length 5 — not a multiple of 4 — the hex
field is not empty (the source's guard is `length >= 4`, not
`length % 4 == 0`): with an all-ones stream it is `"1F"`. -/
theorem claim6_counterexample :
    (generateClassicalRandom (fun _ => (0 : ℕ)) (fun s => (true, s)) 0 5 none 1).1.hex ≠
      [] := by
  decide

/-- Claim C6 as amended: the hex field is empty exactly for lengths
below 4; for `L ≥ 4` it is the uppercase hexadecimal form of the
generated bits zero-padded to `L / 4` digits, and when `L` is a multiple
of 4 its length is exactly `L / 4`.  (For `L ≥ 4` not a multiple of 4
the field is still produced, padded to `⌊L/4⌋` digits.) -/
theorem claim6_hex_format {σ : Type} (seedFn : ℤ → σ) (step : σ → Bool × σ)
    (st : σ) (L : ℕ) (seed : Option ℤ) (t : ℚ) :
    (L < 4 → (generateClassicalRandom seedFn step st L seed t).1.hex = []) ∧
    (4 ≤ L →
      (generateClassicalRandom seedFn step st L seed t).1.hex =
        zfillChars (L / 4)
          (hexRep (bitsVal (generateClassicalRandom seedFn step st L seed t).1.binary))) ∧
    (4 ∣ L → 4 ≤ L →
      ((generateClassicalRandom seedFn step st L seed t).1.hex).length = L / 4) := by
  refine ⟨?_, ?_, ?_⟩
  · intro h
    unfold generateClassicalRandom
    dsimp only
    rw [if_neg (by omega)]
  · intro h
    unfold generateClassicalRandom
    dsimp only
    rw [if_pos h]
  · intro hdvd h
    unfold generateClassicalRandom
    dsimp only
    rw [if_pos h]
    exact hexPadded_length _ L (genBits_length step L _) hdvd h

/-- Witness for C6: length 3 (below 4) and length 8 (a multiple of 4)
with an alternating generator. -/
theorem claim6_witness :
    ((3 : ℕ) < 4 ∧
      (generateClassicalRandom (fun _ => (0 : ℕ)) (fun s => (s % 2 = 0, s + 1)) 0
        3 none 1).1.hex = []) ∧
    ((4 : ℕ) ∣ 8 ∧ (4 : ℕ) ≤ 8 ∧
      ((generateClassicalRandom (fun _ => (0 : ℕ)) (fun s => (s % 2 = 0, s + 1)) 0
        8 none 1).1.hex).length = 8 / 4) :=
  ⟨⟨by decide,
    (claim6_hex_format (fun _ => (0 : ℕ)) (fun s => (s % 2 = 0, s + 1)) 0 3 none 1).1
      (by decide)⟩,
   ⟨by decide, by decide,
    (claim6_hex_format (fun _ => (0 : ℕ)) (fun s => (s % 2 = 0, s + 1)) 0 8 none 1).2.2
      (by decide) (by decide)⟩⟩

set_option maxRecDepth 8000 in
/-- Claim C7 (code bug): the simulator-mode fallback
`_simulate_quantum_random` does NOT floor its elapsed time at 0.001
(comparator.py lines 400 and 410), unlike every other generation path:
with a zero (or sub-half-microsecond) wall-clock reading it records
`generation_time_ms = 0.0`, contradicting the spec's floor — and line
411 would then divide by that zero.  For contrast, the classical path
floors a zero reading to 0.001. -/
theorem claim7_fallback_time_not_floored :
    (simulateQuantumRandom 8 0 0).generation_time_ms = 0 ∧
    (simulateQuantumRandom 8 0 (3 / 10000)).generation_time_ms = 0 ∧
    (generateClassicalRandom (fun _ => (0 : ℕ)) (fun s => (true, s)) 0 8 none
      0).1.generation_time_ms = 1 / 1000 :=
  ⟨of_decide_eq_true (by with_unfolding_all rfl),
   of_decide_eq_true (by with_unfolding_all rfl),
   of_decide_eq_true (by with_unfolding_all rfl)⟩

/-- Claim C8 counterexample: the `chi_square` field of the frequency
test is the statistic rounded to 4 decimals (entropy_analyzer.py line
91), so on a 23-bit string with 12 ones it is `0.0435`, not the exact
`(12 - 23/2)^2/(23/2) + (11 - 23/2)^2/(23/2) = 1/23` the claim
asserts. -/
theorem claim8_counterexample :
    (frequencyTest (List.replicate 12 true ++ List.replicate 11 false)).chi_square ≠
      some (((12 : ℚ) - 23 / 2) ^ 2 / (23 / 2) + ((11 : ℚ) - 23 / 2) ^ 2 / (23 / 2)) :=
  of_decide_eq_true (by with_unfolding_all rfl)

/-- Claim C8 as amended: the reported `chi_square` equals the exact
statistic `(ones - N/2)^2/(N/2) + (zeros - N/2)^2/(N/2)` rounded to 4
decimals, `passed` holds iff the UNROUNDED statistic is below 3.84, and
on the all-zero 20-bit string the field is exactly 20 with
`passed = false`. -/
theorem claim8_frequency_chi (s : List Bool) (h : 20 ≤ s.length) :
    (frequencyTest s).chi_square =
      some (pyRound
        (((s.count true : ℚ) - (s.length : ℚ) / 2) ^ 2 / ((s.length : ℚ) / 2) +
          (((s.length - s.count true : ℕ) : ℚ) - (s.length : ℚ) / 2) ^ 2 /
            ((s.length : ℚ) / 2)) 4) ∧
    ((frequencyTest s).passed = true ↔
      ((s.count true : ℚ) - (s.length : ℚ) / 2) ^ 2 / ((s.length : ℚ) / 2) +
        (((s.length - s.count true : ℕ) : ℚ) - (s.length : ℚ) / 2) ^ 2 /
          ((s.length : ℚ) / 2) < 3.84) ∧
    (frequencyTest (List.replicate 20 false)).chi_square = some 20 ∧
    (frequencyTest (List.replicate 20 false)).passed = false := by
  refine ⟨rfl, ?_, of_decide_eq_true (by with_unfolding_all rfl),
    of_decide_eq_true (by with_unfolding_all rfl)⟩
  show (decide _ = true) ↔ _
  exact decide_eq_true_iff

/-- Witness for C8 at the all-zero 20-bit string. -/
theorem claim8_witness :
    20 ≤ (List.replicate 20 false).length ∧
    (frequencyTest (List.replicate 20 false)).chi_square = some 20 :=
  ⟨by decide, (claim8_frequency_chi (List.replicate 20 false) (by decide)).2.2.1⟩

end QSKG
